import Mathlib

/-!
Verification of the invite-reward chat bot.

The repository has two variants of the same bot: `src/bot.js` (Postgres-backed,
the `Bot` namespace below) and `src/unnamed/part_000` (SQLite-backed, the
`Sqlite` namespace below).  Both keep a single table `balances (user_id TEXT
PRIMARY KEY, balance REAL/DOUBLE PRECISION)` and expose three store helpers
(`getBalance`, `addBalance`, `getLeaderboard`) plus a four-command interaction
handler (`balance`, `verify`, `unverify`, `leaderboard`) and a member-join
channel provisioner.

The store is modelled as a list of rows in insertion order; balances are
modelled as rationals.  A missing Postgres connection string (`DATABASE_URL`
absent, hence `pool = null`) is modelled by `Option Table` with `none` for the
null pool.  Each store helper issues a single SQL statement, so it is one
atomic step on the table; a concurrent interleaving of such atomic steps is a
permutation of them.
-/

abbrev UserId := String

/-- One row of the `balances` table. -/
structure Row where
  user_id : UserId
  balance : ℚ
deriving DecidableEq

/-- The `balances` table, rows in insertion order. -/
abbrev Table := List Row

/-- `ORDER BY balance DESC`: row `a` may come before row `b`. -/
def rowGE (a b : Row) : Prop := b.balance ≤ a.balance

instance : DecidableRel rowGE := fun a b =>
  inferInstanceAs (Decidable (b.balance ≤ a.balance))

instance : IsTotal Row rowGE := ⟨fun a b => le_total b.balance a.balance⟩

instance : IsTrans Row rowGE := ⟨fun _ _ _ h1 h2 => le_trans h2 h1⟩

namespace Sqlite

/-- `src/unnamed/part_000` `getBalance`: `SELECT balance FROM balances WHERE
user_id = ?`, then `row ? row.balance : 0`. -/
def getBalance (t : Table) (userId : UserId) : ℚ :=
  match t.find? (fun r => r.user_id == userId) with
  | some r => r.balance
  | none => 0

/-- `src/unnamed/part_000` `addBalance`: `INSERT INTO balances (user_id,
balance) VALUES (?, ?) ON CONFLICT(user_id) DO UPDATE SET balance = balance +
?` with parameters `[userId, amount, amount]`. -/
def addBalance (t : Table) (userId : UserId) (amount : ℚ) : Table :=
  if t.any (fun r => r.user_id == userId) then
    t.map (fun r =>
      if r.user_id == userId then { r with balance := r.balance + amount } else r)
  else
    t ++ [{ user_id := userId, balance := amount }]

/-- `src/unnamed/part_000` `getLeaderboard`: `SELECT user_id, balance FROM
balances ORDER BY balance DESC LIMIT ?`.  Ties are returned in table
(insertion) order, modelled by a stable sort. -/
def getLeaderboard (t : Table) (limit : Nat) : Table :=
  (List.insertionSort rowGE t).take limit

end Sqlite

namespace Bot

/-- `src/bot.js` `getBalance`: returns `0` when `pool` is null, otherwise
`SELECT balance FROM balances WHERE user_id = $1` and
`res.rows[0] ? parseFloat(res.rows[0].balance) : 0`. -/
def getBalance (pool : Option Table) (userId : UserId) : ℚ :=
  match pool with
  | none => 0
  | some t =>
    match t.find? (fun r => r.user_id == userId) with
    | some r => r.balance
    | none => 0

/-- `src/bot.js` `addBalance`: no-op when `pool` is null, otherwise
`INSERT INTO balances (user_id, balance) VALUES ($1, $2) ON CONFLICT (user_id)
DO UPDATE SET balance = balances.balance + EXCLUDED.balance` with parameters
`[userId, amount]`.  `EXCLUDED` is the proposed row `(userId, amount)`. -/
def addBalance (pool : Option Table) (userId : UserId) (amount : ℚ) : Option Table :=
  match pool with
  | none => none
  | some t =>
    let excluded : Row := { user_id := userId, balance := amount }
    some
      (if t.any (fun r => r.user_id == userId) then
        t.map (fun r =>
          if r.user_id == userId then
            { r with balance := r.balance + excluded.balance }
          else r)
      else
        t ++ [excluded])

/-- `src/bot.js` `getLeaderboard`: `[]` when `pool` is null, otherwise
`SELECT user_id, balance FROM balances ORDER BY balance DESC LIMIT $1`. -/
def getLeaderboard (pool : Option Table) (limit : Nat) : Table :=
  match pool with
  | none => []
  | some t => (List.insertionSort rowGE t).take limit

end Bot

/-- A platform user as the handlers see it: `user.id` and `user.username`. -/
structure User where
  id : UserId
  username : String
deriving DecidableEq

/-- A slash-command invocation: the command name, the invoking user, and the
two user options of `verify`/`unverify` (ignored by the other commands). -/
structure Interaction where
  commandName : String
  user : User
  memberOpt : User
  inviterOpt : User
deriving DecidableEq

/-- A reply sent back through the gateway; `ephemeral` means visible only to
the invoker. -/
structure Reply where
  content : String
  ephemeral : Bool
deriving DecidableEq

/-- JavaScript `number.toFixed(2)`: the value formatted with exactly two
digits after the decimal point, rounding to the nearest hundredth. -/
def toFixed2 (q : ℚ) : String :=
  let c : Int := round (q * 100)
  let n : Nat := c.natAbs
  let sign : String := if c < 0 then "-" else ""
  let frac : Nat := n % 100
  sign ++ toString (n / 100) ++ "." ++ (if frac < 10 then "0" else "") ++ toString frac

/-- `src/bot.js` leaderboard formatting: `rows.map((row, i) => ...)` joined
with newlines — 1-indexed rank, user mention, balance to two decimals. -/
def formatRows (rows : Table) : String :=
  String.intercalate "\n"
    (rows.enum.map (fun p =>
      toString (p.1 + 1) ++ ". <@" ++ p.2.user_id ++ "> — **" ++
        toFixed2 p.2.balance ++ "**"))

/-- `src/bot.js` `interactionCreate` handler.  Returns the pool state after
the invocation and the single reply produced (the deferred acknowledgment and
its later edit collapse to one final reply whose `ephemeral` flag comes from
the defer options). -/
def handleInteraction (ownerId : String) (pool : Option Table) (i : Interaction) :
    Option Table × Option Reply :=
  if i.commandName == "balance" then
    (pool,
     some { content := "💰 Your current balance is **" ++
              toFixed2 (Bot.getBalance pool i.user.id) ++ "**",
            ephemeral := true })
  else if i.commandName == "verify" then
    if i.user.id ≠ ownerId then
      (pool, some { content := "❌ Only the owner can use this command.",
                    ephemeral := true })
    else
      (Bot.addBalance pool i.inviterOpt.id 0.2,
       some { content := "✅ Verified **" ++ i.memberOpt.username ++
                "** was invited by **" ++ i.inviterOpt.username ++
                "**.\nAdded **0.2** to " ++ i.inviterOpt.username ++
                "\x27s balance.",
              ephemeral := false })
  else if i.commandName == "unverify" then
    if i.user.id ≠ ownerId then
      (pool, some { content := "❌ Only the owner can use this command.",
                    ephemeral := true })
    else
      (Bot.addBalance pool i.inviterOpt.id (-0.2),
       some { content := "↩️ Unverified **" ++ i.memberOpt.username ++
                "** who was invited by **" ++ i.inviterOpt.username ++
                "**.\nRemoved **0.2** from " ++ i.inviterOpt.username ++
                "\x27s balance.",
              ephemeral := false })
  else if i.commandName == "leaderboard" then
    let rows := Bot.getLeaderboard pool 15
    if rows.isEmpty then
      (pool, some { content := "🏆 No data yet!", ephemeral := false })
    else
      (pool, some { content := "🏆 **Top 15 Leaderboard**\n\n" ++ formatRows rows,
                    ephemeral := false })
  else
    (pool, none)

/-- Characters the join-event channel name keeps: the JS regex class
`[a-z0-9-]`. -/
def isAllowedChar (c : Char) : Bool :=
  (decide (Char.ofNat 97 ≤ c) && decide (c ≤ Char.ofNat 122)) ||
  (decide (Char.ofNat 48 ≤ c) && decide (c ≤ Char.ofNat 57)) ||
  c == Char.ofNat 45

/-- `src/bot.js` `guildMemberAdd` channel name (characters of the string):
`` `verify-${member.user.username}`.toLowerCase().replace(/[^a-z0-9-]/g, "") ``. -/
def channelNameOf (username : List Char) : List Char :=
  (("verify-".toList ++ username).map Char.toLower).filter isAllowedChar

/-- The channel identifier as claim C9 words it: the member name lowercased
with every character outside `[a-z0-9-]` stripped, and nothing else. -/
def channelNameClaim (username : List Char) : List Char :=
  (username.map Char.toLower).filter isAllowedChar

/-! ### Store lemmas -/

/-- The row-update function of the upsert preserves `user_id`. -/
theorem upsert_pred_comp (u : UserId) (d : ℚ) :
    ((fun r : Row => r.user_id == u) ∘ fun r : Row =>
      if r.user_id == u then { r with balance := r.balance + d } else r) =
    fun r : Row => r.user_id == u := by
  funext r
  by_cases hr : r.user_id = u <;> simp [hr]

/-- One atomic upsert adds exactly its delta to the target user's balance. -/
theorem getBalance_addBalance_self (t : Table) (u : UserId) (d : ℚ) :
    Sqlite.getBalance (Sqlite.addBalance t u d) u = Sqlite.getBalance t u + d := by
  unfold Sqlite.getBalance Sqlite.addBalance
  by_cases h : t.any (fun r => r.user_id == u) = true
  · rw [if_pos h, List.find?_map, upsert_pred_comp]
    cases hf : t.find? (fun r => r.user_id == u) with
    | none =>
      rw [List.find?_eq_none] at hf
      rw [List.any_eq_true] at h
      obtain ⟨x, hx, hpx⟩ := h
      exact absurd hpx (hf x hx)
    | some r₀ =>
      have hp := List.find?_some hf
      simp [Option.map, hp]
  · rw [if_neg h]
    have hnone : t.find? (fun r => r.user_id == u) = none := by
      rw [List.find?_eq_none]
      intro x hx hpx
      exact h (List.any_eq_true.mpr ⟨x, hx, hpx⟩)
    rw [List.find?_append, hnone]
    simp [List.find?]

/-- One atomic upsert for user `u` leaves every other user's balance alone. -/
theorem getBalance_addBalance_other (t : Table) (u v : UserId) (d : ℚ)
    (huv : u ≠ v) :
    Sqlite.getBalance (Sqlite.addBalance t u d) v = Sqlite.getBalance t v := by
  unfold Sqlite.getBalance Sqlite.addBalance
  by_cases h : t.any (fun r => r.user_id == u) = true
  · rw [if_pos h, List.find?_map]
    have hpred : ((fun r : Row => r.user_id == v) ∘ fun r : Row =>
        if r.user_id == u then { r with balance := r.balance + d } else r) =
        fun r : Row => r.user_id == v := by
      funext r
      by_cases hr : r.user_id = u <;> simp [hr]
    rw [hpred]
    cases hf : t.find? (fun r => r.user_id == v) with
    | none => simp
    | some r₀ =>
      have hp := List.find?_some hf
      have hru : ¬ r₀.user_id = u := by
        simp only [beq_iff_eq] at hp
        rw [hp]
        exact Ne.symm huv
      simp [Option.map, hru]
  · rw [if_neg h, List.find?_append]
    cases hf : t.find? (fun r => r.user_id == v) with
    | none =>
      have huv2 : (u == v) = false := beq_eq_false_iff_ne.mpr huv
      simp [List.find?, huv2]
    | some r₀ => simp

/-- Folding atomic upserts for user `u` adds exactly the sum of the deltas. -/
theorem getBalance_foldl_self (u : UserId) (ds : List ℚ) (t : Table) :
    Sqlite.getBalance (ds.foldl (fun s d => Sqlite.addBalance s u d) t) u =
      Sqlite.getBalance t u + ds.sum := by
  induction ds generalizing t with
  | nil => simp
  | cons d ds ih =>
    rw [List.foldl_cons, ih, getBalance_addBalance_self, List.sum_cons]
    ring

/-- Upserts that never mention user `u` do not change `u`'s balance. -/
theorem getBalance_foldl_other (u : UserId) (ops : List (UserId × ℚ)) (t : Table)
    (h : ∀ p ∈ ops, p.1 ≠ u) :
    Sqlite.getBalance (ops.foldl (fun s p => Sqlite.addBalance s p.1 p.2) t) u =
      Sqlite.getBalance t u := by
  induction ops generalizing t with
  | nil => rfl
  | cons p ops ih =>
    rw [List.foldl_cons, ih _ (fun q hq => h q (List.mem_cons_of_mem p hq)),
        getBalance_addBalance_other _ _ _ _ (h p (List.mem_cons_self p ops))]

/-- With a live pool, the Postgres read agrees with the SQLite read. -/
theorem bot_getBalance_some (t : Table) (u : UserId) :
    Bot.getBalance (some t) u = Sqlite.getBalance t u := rfl

/-- With a live pool, the Postgres upsert agrees with the SQLite upsert. -/
theorem bot_addBalance_some (t : Table) (u : UserId) (d : ℚ) :
    Bot.addBalance (some t) u d = some (Sqlite.addBalance t u d) := rfl

/-- With a live pool, the Postgres ranked scan agrees with SQLite's. -/
theorem bot_getLeaderboard_some (t : Table) (n : Nat) :
    Bot.getLeaderboard (some t) n = Sqlite.getLeaderboard t n := rfl

/-- A fold of Postgres upserts over a live pool stays live and mirrors the
fold of SQLite upserts on the underlying table. -/
theorem bot_foldl_addBalance (ops : List (UserId × ℚ)) (t : Table) :
    ops.foldl (fun pool p => Bot.addBalance pool p.1 p.2) (some t) =
      some (ops.foldl (fun s p => Sqlite.addBalance s p.1 p.2) t) := by
  induction ops generalizing t with
  | nil => rfl
  | cons p ops ih => rw [List.foldl_cons, bot_addBalance_some, ih, List.foldl_cons]

/-- A record's stored balance is what `getBalance` returns, provided keys are
unique (which the upsert-only lifecycle guarantees). -/
theorem getBalance_mem (t : Table) (u : UserId) (r : Row)
    (hkeys : (t.map Row.user_id).Nodup) (hr : r ∈ t) (hu : r.user_id = u) :
    Sqlite.getBalance t u = r.balance := by
  induction t with
  | nil => cases hr
  | cons a t ih =>
    rw [List.map_cons, List.nodup_cons] at hkeys
    rcases List.mem_cons.mp hr with h | h
    · subst h
      unfold Sqlite.getBalance
      simp [List.find?_cons, hu]
    · by_cases ha : a.user_id = u
      · exfalso
        apply hkeys.1
        have : r.user_id ∈ t.map Row.user_id := List.mem_map_of_mem Row.user_id h
        rw [hu] at this
        rw [ha]
        exact this
      · have : Sqlite.getBalance (a :: t) u = Sqlite.getBalance t u := by
          unfold Sqlite.getBalance
          simp [List.find?_cons, ha]
        rw [this]
        exact ih hkeys.2 h

/-- When no record for `u` exists, `getBalance` returns `0`. -/
theorem getBalance_absent (t : Table) (u : UserId)
    (h : ∀ r ∈ t, r.user_id ≠ u) :
    Sqlite.getBalance t u = 0 := by
  unfold Sqlite.getBalance
  have : t.find? (fun r => r.user_id == u) = none := by
    rw [List.find?_eq_none]
    intro x hx hpx
    exact h x hx (by simpa using hpx)
  rw [this]

/-- Folding Postgres upserts for one user over a live pool mirrors the
SQLite fold on the underlying table. -/
theorem bot_foldl_addBalance_user (u : UserId) (ds : List ℚ) (t : Table) :
    ds.foldl (fun pool d => Bot.addBalance pool u d) (some t) =
      some (ds.foldl (fun s d => Sqlite.addBalance s u d) t) := by
  induction ds generalizing t with
  | nil => rfl
  | cons d ds ih => rw [List.foldl_cons, bot_addBalance_some, ih, List.foldl_cons]

/-- `orderedInsert` under `rowGE` skips only rows with strictly greater
balance, so filtering at any fixed balance keeps the inserted row first among
its ties. -/
theorem filter_orderedInsert_rowGE (a : Row) (l : List Row) (d : ℚ) :
    (l.orderedInsert rowGE a).filter (fun r => r.balance == d) =
      if a.balance = d then a :: l.filter (fun r => r.balance == d)
      else l.filter (fun r => r.balance == d) := by
  induction l with
  | nil =>
    by_cases h : a.balance = d <;>
      simp [List.orderedInsert, List.filter_cons, beq_iff_eq, h]
  | cons b l ih =>
    by_cases hab : rowGE a b
    · by_cases had : a.balance = d <;>
        by_cases hbd : b.balance = d <;>
          simp [List.orderedInsert, hab, List.filter_cons, had, hbd]
    · have hb_gt : a.balance < b.balance := lt_of_not_le hab
      by_cases had : a.balance = d
      · have hbd : ¬ b.balance = d := by
          intro hbd
          rw [had, ← hbd] at hb_gt
          exact absurd hb_gt (lt_irrefl _)
        simp [List.orderedInsert, hab, List.filter_cons, had, hbd, ih]
      · by_cases hbd : b.balance = d <;>
          simp [List.orderedInsert, hab, List.filter_cons, had, hbd, ih]

/-- Stability of the ranked scan: within one balance value, the sorted order
is exactly the insertion order of the table. -/
theorem filter_insertionSort_rowGE (t : List Row) (d : ℚ) :
    (List.insertionSort rowGE t).filter (fun r => r.balance == d) =
      t.filter (fun r => r.balance == d) := by
  induction t with
  | nil => rfl
  | cons a t ih =>
    rw [List.insertionSort, filter_orderedInsert_rowGE]
    by_cases had : a.balance = d
    · rw [if_pos had, ih, List.filter_cons]
      simp [had]
    · rw [if_neg had, ih, List.filter_cons]
      simp [had]

/-! ### Claim theorems -/

/-- C1: for every user `u` and every finite sequence of deltas, applying
`addBalance(u, d1), ..., addBalance(u, dn)` in any interleaving order (each
call is one atomic store upsert, so an interleaving is a permutation of the
calls) leaves `getBalance(u)` equal to `u`'s prior balance plus the sum of the
deltas — no update is lost. -/
theorem c1_no_lost_updates (t : Table) (u : UserId) (ds seq : List ℚ)
    (hperm : seq.Perm ds) :
    Bot.getBalance (seq.foldl (fun pool d => Bot.addBalance pool u d) (some t)) u =
      Bot.getBalance (some t) u + ds.sum := by
  rw [bot_foldl_addBalance_user, bot_getBalance_some, bot_getBalance_some,
    getBalance_foldl_self, hperm.sum_eq]

/-- Witness for C1 at a concrete interleaving: applying the deltas `[1, 2]`
in the order `[2, 1]` to an empty store gives balance `0 + 3`. -/
theorem c1_no_lost_updates_witness :
    Bot.getBalance
        (([(2 : ℚ), 1]).foldl (fun pool d => Bot.addBalance pool "u1" d) (some [])) "u1" =
      Bot.getBalance (some ([] : Table)) "u1" + ([(1 : ℚ), 2]).sum :=
  c1_no_lost_updates [] "u1" [1, 2] [2, 1] (List.Perm.swap 1 2 [])

/-- C2: `getBalance` returns the stored balance when a record exists (store
keys are unique), returns `0` when no record exists, and a user never passed
to `addBalance` keeps balance `0` — upserts for other users never touch it. -/
theorem c2_getBalance_default (t : Table) (u : UserId) (ops : List (UserId × ℚ))
    (hkeys : (t.map Row.user_id).Nodup) :
    (∀ r ∈ t, r.user_id = u → Bot.getBalance (some t) u = r.balance) ∧
    ((∀ r ∈ t, r.user_id ≠ u) → Bot.getBalance (some t) u = 0) ∧
    ((∀ p ∈ ops, p.1 ≠ u) →
      Bot.getBalance
          (ops.foldl (fun pool p => Bot.addBalance pool p.1 p.2) (some t)) u =
        Bot.getBalance (some t) u) ∧
    ((∀ p ∈ ops, p.1 ≠ u) →
      Bot.getBalance
          (ops.foldl (fun pool p => Bot.addBalance pool p.1 p.2) (some [])) u = 0) := by
  refine ⟨?_, ?_, ?_, ?_⟩
  · intro r hr hu
    rw [bot_getBalance_some]
    exact getBalance_mem t u r hkeys hr hu
  · intro h
    rw [bot_getBalance_some]
    exact getBalance_absent t u h
  · intro h
    rw [bot_foldl_addBalance, bot_getBalance_some, bot_getBalance_some]
    exact getBalance_foldl_other u ops t h
  · intro h
    rw [bot_foldl_addBalance, bot_getBalance_some]
    rw [getBalance_foldl_other u ops [] h]
    rfl

/-- Witness for C2 at the one-row store `[("a", 5)]` and foreign ops on
`"b"`. -/
theorem c2_getBalance_default_witness :
    (∀ r ∈ ([⟨"a", 5⟩] : Table), r.user_id = "a" →
      Bot.getBalance (some [⟨"a", 5⟩]) "a" = r.balance) ∧
    ((∀ r ∈ ([⟨"a", 5⟩] : Table), r.user_id ≠ "a") →
      Bot.getBalance (some [⟨"a", 5⟩]) "a" = 0) ∧
    ((∀ p ∈ ([(("b" : UserId), (3 : ℚ))]), p.1 ≠ "a") →
      Bot.getBalance
          (([(("b" : UserId), (3 : ℚ))]).foldl
            (fun pool p => Bot.addBalance pool p.1 p.2) (some [⟨"a", 5⟩])) "a" =
        Bot.getBalance (some [⟨"a", 5⟩]) "a") ∧
    ((∀ p ∈ ([(("b" : UserId), (3 : ℚ))]), p.1 ≠ "a") →
      Bot.getBalance
          (([(("b" : UserId), (3 : ℚ))]).foldl
            (fun pool p => Bot.addBalance pool p.1 p.2) (some [])) "a" = 0) :=
  c2_getBalance_default [⟨"a", 5⟩] "a" [("b", 3)] (by decide)

/-- C10: the Postgres-backed helpers of `src/bot.js` (with a live pool) and
the SQLite-backed helpers of `src/unnamed/part_000` are observationally
equivalent: over equal table states each operation returns the same result
and leaves the same table. -/
theorem c10_backend_equivalence (t : Table) (u : UserId) (d : ℚ) (n : Nat) :
    Bot.getBalance (some t) u = Sqlite.getBalance t u ∧
    Bot.addBalance (some t) u d = some (Sqlite.addBalance t u d) ∧
    Bot.getLeaderboard (some t) n = Sqlite.getLeaderboard t n :=
  ⟨rfl, rfl, rfl⟩

/-- C5: `getLeaderboard n` returns at most `n` records, sorted by balance
descending, equals the first `n` records of the stable descending sort of the
table, breaks ties deterministically by insertion order (filtering the sorted
table at any fixed balance value reproduces insertion order), and returns `[]`
on the empty store. -/
theorem c5_getLeaderboard_spec (t : Table) (n : Nat) (hn : 0 < n) :
    (Bot.getLeaderboard (some t) n).length ≤ n ∧
    List.Sorted rowGE (Bot.getLeaderboard (some t) n) ∧
    (t = [] → Bot.getLeaderboard (some t) n = []) ∧
    Bot.getLeaderboard (some t) n = (List.insertionSort rowGE t).take n ∧
    (∀ d : ℚ, (List.insertionSort rowGE t).filter (fun r => r.balance == d) =
      t.filter (fun r => r.balance == d)) := by
  refine ⟨?_, ?_, ?_, rfl, fun d => filter_insertionSort_rowGE t d⟩
  · show ((List.insertionSort rowGE t).take n).length ≤ n
    rw [List.length_take]
    exact min_le_left _ _
  · show List.Pairwise rowGE ((List.insertionSort rowGE t).take n)
    exact List.Pairwise.sublist (List.take_sublist n _)
      (List.sorted_insertionSort rowGE t)
  · intro h
    subst h
    show (List.insertionSort rowGE []).take n = []
    rw [List.insertionSort, List.take_nil]

/-- Witness for C5 on a two-row store with tied balances and limit 1. -/
theorem c5_getLeaderboard_spec_witness :
    0 < 1 ∧
    ((Bot.getLeaderboard (some [⟨"a", 3⟩, ⟨"b", 3⟩]) 1).length ≤ 1 ∧
     List.Sorted rowGE (Bot.getLeaderboard (some [⟨"a", 3⟩, ⟨"b", 3⟩]) 1) ∧
     (([⟨"a", 3⟩, ⟨"b", 3⟩] : Table) = [] →
       Bot.getLeaderboard (some [⟨"a", 3⟩, ⟨"b", 3⟩]) 1 = []) ∧
     Bot.getLeaderboard (some [⟨"a", 3⟩, ⟨"b", 3⟩]) 1 =
       (List.insertionSort rowGE [⟨"a", 3⟩, ⟨"b", 3⟩]).take 1 ∧
     (∀ d : ℚ,
       (List.insertionSort rowGE [⟨"a", 3⟩, ⟨"b", 3⟩]).filter
           (fun r => r.balance == d) =
         ([⟨"a", 3⟩, ⟨"b", 3⟩] : Table).filter (fun r => r.balance == d))) :=
  ⟨Nat.one_pos, c5_getLeaderboard_spec [⟨"a", 3⟩, ⟨"b", 3⟩] 1 Nat.one_pos⟩

/-- C3: invoked by the operator, `verify(member, inviter)` performs
`addBalance(inviter, +0.2)` and publicly confirms naming both users, and
`unverify(member, inviter)` performs `addBalance(inviter, -0.2)` and confirms
naming both; the `-0.2` is applied unconditionally — no matching `verify` is
checked — so from a store where the inviter has no record a single `unverify`
drives the balance negative. -/
theorem c3_verify_unverify (ownerId ownerName : String) (pool : Option Table)
    (m inv : User) :
    ((handleInteraction ownerId pool
        { commandName := "verify", user := { id := ownerId, username := ownerName },
          memberOpt := m, inviterOpt := inv }).1 =
      Bot.addBalance pool inv.id 0.2 ∧
     ∃ rep : Reply,
       (handleInteraction ownerId pool
          { commandName := "verify", user := { id := ownerId, username := ownerName },
            memberOpt := m, inviterOpt := inv }).2 = some rep ∧
       rep.ephemeral = false ∧
       ∃ s1 s2 s3, rep.content = s1 ++ m.username ++ s2 ++ inv.username ++ s3) ∧
    ((handleInteraction ownerId pool
        { commandName := "unverify", user := { id := ownerId, username := ownerName },
          memberOpt := m, inviterOpt := inv }).1 =
      Bot.addBalance pool inv.id (-0.2) ∧
     ∃ rep : Reply,
       (handleInteraction ownerId pool
          { commandName := "unverify", user := { id := ownerId, username := ownerName },
            memberOpt := m, inviterOpt := inv }).2 = some rep ∧
       rep.ephemeral = false ∧
       ∃ s1 s2 s3, rep.content = s1 ++ m.username ++ s2 ++ inv.username ++ s3) ∧
    Bot.getBalance (Bot.addBalance (some []) inv.id (-0.2)) inv.id < 0 := by
  refine ⟨⟨?_, ?_⟩, ⟨?_, ?_⟩, ?_⟩
  · simp [handleInteraction]
  · refine ⟨⟨"✅ Verified **" ++ m.username ++ "** was invited by **" ++
        inv.username ++ "**.\nAdded **0.2** to " ++ inv.username ++ "\x27s balance.",
        false⟩,
      by simp [handleInteraction], rfl,
      "✅ Verified **", "** was invited by **",
      "**.\nAdded **0.2** to " ++ inv.username ++ "\x27s balance.", ?_⟩
    simp [String.append_assoc]
  · simp [handleInteraction]
  · refine ⟨⟨"↩️ Unverified **" ++ m.username ++ "** who was invited by **" ++
        inv.username ++ "**.\nRemoved **0.2** from " ++ inv.username ++ "\x27s balance.",
        false⟩,
      by simp [handleInteraction], rfl,
      "↩️ Unverified **", "** who was invited by **",
      "**.\nRemoved **0.2** from " ++ inv.username ++ "\x27s balance.", ?_⟩
    simp [String.append_assoc]
  · show Sqlite.getBalance (Sqlite.addBalance [] inv.id (-0.2)) inv.id < 0
    rw [getBalance_addBalance_self]
    norm_num [Sqlite.getBalance]

/-- C4: an invoker whose identity is not string-equal to the configured
operator identity gets a privately-visible (ephemeral) rejection from both
`verify` and `unverify`, the store state is unchanged, and every stored
balance reads the same as before. -/
theorem c4_authorization_gate (ownerId : String) (pool : Option Table)
    (caller m inv : User) (hc : caller.id ≠ ownerId) :
    handleInteraction ownerId pool
        { commandName := "verify", user := caller, memberOpt := m, inviterOpt := inv } =
      (pool, some ⟨"❌ Only the owner can use this command.", true⟩) ∧
    handleInteraction ownerId pool
        { commandName := "unverify", user := caller, memberOpt := m, inviterOpt := inv } =
      (pool, some ⟨"❌ Only the owner can use this command.", true⟩) ∧
    (∀ u : UserId,
      Bot.getBalance (handleInteraction ownerId pool
          { commandName := "verify", user := caller,
            memberOpt := m, inviterOpt := inv }).1 u =
        Bot.getBalance pool u) ∧
    (∀ u : UserId,
      Bot.getBalance (handleInteraction ownerId pool
          { commandName := "unverify", user := caller,
            memberOpt := m, inviterOpt := inv }).1 u =
        Bot.getBalance pool u) := by
  have h1 : handleInteraction ownerId pool
      { commandName := "verify", user := caller, memberOpt := m, inviterOpt := inv } =
      (pool, some ⟨"❌ Only the owner can use this command.", true⟩) := by
    simp [handleInteraction, hc]
  have h2 : handleInteraction ownerId pool
      { commandName := "unverify", user := caller, memberOpt := m, inviterOpt := inv } =
      (pool, some ⟨"❌ Only the owner can use this command.", true⟩) := by
    simp [handleInteraction, hc]
  exact ⟨h1, h2, fun u => by rw [h1], fun u => by rw [h2]⟩

/-- Witness for C4: invoker `"mallory"` against operator `"owner"`. -/
theorem c4_authorization_gate_witness :
    handleInteraction "owner" (some [])
        { commandName := "verify", user := ⟨"mallory", "Mallory"⟩,
          memberOpt := ⟨"m", "M"⟩, inviterOpt := ⟨"i", "I"⟩ } =
      (some [], some ⟨"❌ Only the owner can use this command.", true⟩) ∧
    handleInteraction "owner" (some [])
        { commandName := "unverify", user := ⟨"mallory", "Mallory"⟩,
          memberOpt := ⟨"m", "M"⟩, inviterOpt := ⟨"i", "I"⟩ } =
      (some [], some ⟨"❌ Only the owner can use this command.", true⟩) ∧
    (∀ u : UserId,
      Bot.getBalance (handleInteraction "owner" (some [])
          { commandName := "verify", user := ⟨"mallory", "Mallory"⟩,
            memberOpt := ⟨"m", "M"⟩, inviterOpt := ⟨"i", "I"⟩ }).1 u =
        Bot.getBalance (some []) u) ∧
    (∀ u : UserId,
      Bot.getBalance (handleInteraction "owner" (some [])
          { commandName := "unverify", user := ⟨"mallory", "Mallory"⟩,
            memberOpt := ⟨"m", "M"⟩, inviterOpt := ⟨"i", "I"⟩ }).1 u =
        Bot.getBalance (some []) u) :=
  c4_authorization_gate "owner" (some []) ⟨"mallory", "Mallory"⟩ ⟨"m", "M"⟩ ⟨"i", "I"⟩
    (by decide)

/-- C7: with no storage connection string (null pool) every store operation
degrades gracefully — `getBalance` returns `0`, `getLeaderboard` returns `[]`,
`addBalance` is a silent no-op — and the `balance` command still replies with
`0.00`, indistinguishable for reads from an empty store. -/
theorem c7_degraded_mode (u : UserId) (d : ℚ) (n : Nat) (ownerId : String)
    (caller m inv : User) :
    Bot.getBalance none u = 0 ∧
    Bot.addBalance none u d = none ∧
    Bot.getLeaderboard none n = [] ∧
    Bot.getBalance none u = Bot.getBalance (some []) u ∧
    Bot.getLeaderboard none n = Bot.getLeaderboard (some []) n ∧
    handleInteraction ownerId none
        { commandName := "balance", user := caller, memberOpt := m, inviterOpt := inv } =
      (none, some ⟨"💰 Your current balance is **0.00**", true⟩) := by
  refine ⟨rfl, rfl, rfl, rfl, ?_, ?_⟩
  · show ([] : Table) = (List.insertionSort rowGE []).take n
    rw [List.insertionSort, List.take_nil]
  · have h0 : toFixed2 (Bot.getBalance none caller.id) = "0.00" := by
      have hz : Bot.getBalance none caller.id = 0 := rfl
      rw [hz]
      unfold toFixed2
      norm_num
      decide
    simp [handleInteraction, h0]

/-- C8: the leaderboard command fetches the top 15 via `getLeaderboard(15)`;
on an empty result it replies "No data yet!" publicly, changing nothing and
showing no records; otherwise it replies with the 1-indexed ranked list of
(rank, user mention, balance to two decimals). -/
theorem c8_leaderboard_command (ownerId : String) (pool : Option Table)
    (caller m inv : User) :
    (Bot.getLeaderboard pool 15 = [] →
      handleInteraction ownerId pool
          { commandName := "leaderboard", user := caller,
            memberOpt := m, inviterOpt := inv } =
        (pool, some ⟨"🏆 No data yet!", false⟩)) ∧
    (Bot.getLeaderboard pool 15 ≠ [] →
      handleInteraction ownerId pool
          { commandName := "leaderboard", user := caller,
            memberOpt := m, inviterOpt := inv } =
        (pool, some ⟨"🏆 **Top 15 Leaderboard**\n\n" ++
          String.intercalate "\n" ((Bot.getLeaderboard pool 15).enum.map (fun p =>
            toString (p.1 + 1) ++ ". <@" ++ p.2.user_id ++ "> — **" ++
              toFixed2 p.2.balance ++ "**")),
          false⟩)) := by
  constructor
  · intro h
    simp [handleInteraction, h]
  · intro h
    simp [handleInteraction, formatRows, List.isEmpty_iff, h]

/-- Witness for C8 at the empty store: the reply is "No data yet!". -/
theorem c8_leaderboard_command_witness :
    handleInteraction "o" (some [])
        { commandName := "leaderboard", user := ⟨"c", "C"⟩,
          memberOpt := ⟨"m", "M"⟩, inviterOpt := ⟨"i", "I"⟩ } =
      (some [], some ⟨"🏆 No data yet!", false⟩) :=
  (c8_leaderboard_command "o" (some []) ⟨"c", "C"⟩ ⟨"m", "M"⟩ ⟨"i", "I"⟩).1 rfl

/-- C9 counterexample: for member name "Bob" the code derives the identifier
"verify-bob", while the claim's "exactly the filtered lowercase string" would
be "bob" — the code prepends "verify-", so the claim as stated is false. -/
theorem c9_channel_name_counterexample :
    channelNameOf "Bob".toList = "verify-bob".toList ∧
    channelNameClaim "Bob".toList = "bob".toList ∧
    channelNameOf "Bob".toList ≠ channelNameClaim "Bob".toList := by
  refine ⟨by decide, by decide, by decide⟩

/-- C9 (amended): on every member-joined event the channel identifier is
exactly "verify-" followed by the member's name lowercased with every
character outside `[a-z0-9-]` stripped; the fixed prefix passes through the
lowercasing and filtering untouched. -/
theorem c9_channel_name_amended (username : List Char) :
    channelNameOf username = "verify-".toList ++ channelNameClaim username := by
  unfold channelNameOf channelNameClaim
  rw [List.map_append, List.filter_append]
  congr 1
